import Mathlib

/-!
Shallow embedding of the "life in weeks" grid logic from `src/src/App.vue`.

The source is a Vue single-file component whose core is pure date
arithmetic over ECMAScript `Date` values.  A `Date` constructed via
`new Date(year, monthIndex, day)` is a local-calendar date; the component
only ever inspects `getFullYear`/`getMonth`/`getDate` of such dates and
differences of `getTime()` of midnight-truncated dates, so we embed a
`Date` at local midnight as a year/month/day triple (`CalendarDate`) and
`getTime()` as `msPerDay *` the proleptic-Gregorian day number
(ECMAScript `Day`/`MakeDay` semantics; timezone offsets and DST are out
of the spec's scope, all arithmetic is in an idealized local calendar
with 86400000 ms per day).

The `new Date(year, monthIndex, day)` constructor is embedded by
`mkDate`, including the two ECMAScript behaviours that are observable
here: years 0..99 are remapped to 1900+year, and out-of-range
month/day values roll over into subsequent years/months/days.
-/

/-- A local-calendar date at local midnight: the embedding of the `Date`
values this component constructs.  `month` is 1-based (ECMAScript
`getMonth()` returns `month - 1`); `day` is `getDate()`. -/
structure CalendarDate where
  year : Int
  month : Nat
  day : Nat
  deriving DecidableEq

/-- Proleptic-Gregorian leap-year predicate, as in ECMAScript
`DaysInYear`/`InLeapYear`. -/
def isLeap (y : Int) : Bool :=
  (y % 4 == 0 && y % 100 != 0) || (y % 400 == 0)

/-- Number of days of month `m` (1-based) of year `y` in the proleptic
Gregorian calendar. -/
def daysInMonth (y : Int) (m : Nat) : Nat :=
  if m = 2 then (if isLeap y then 29 else 28)
  else if m = 4 ∨ m = 6 ∨ m = 9 ∨ m = 11 then 30
  else 31

/-- Day-overflow normalization used by `mkDate`: starting from year `y`,
month `m ∈ [1,12]` and a day count `d ≥ 1` that may exceed the month
length, spill whole months until the day fits.  `fuel` bounds the
recursion; `mkDate` passes `fuel = d`, which always suffices because
each step removes at least 28 days. -/
def normDaysAux : Nat → Int → Nat → Nat → CalendarDate
  | 0, y, m, d => ⟨y, m, d⟩
  | fuel + 1, y, m, d =>
    if daysInMonth y m < d then
      if m = 12 then normDaysAux fuel (y + 1) 1 (d - 31)
      else normDaysAux fuel y (m + 1) (d - daysInMonth y m)
    else ⟨y, m, d⟩

/-- Normalize a (year, month ∈ [1,12], day ≥ 1) triple whose day may
overflow the month, as ECMAScript `MakeDay` does. -/
def normDays (y : Int) (m d : Nat) : CalendarDate :=
  normDaysAux d y m d

/-- Embedding of `new Date(y, m - 1, d)` (the only `Date` constructor
shape the component uses): ECMAScript remaps an integer year in 0..99 to
1900 + year, then `MakeDay` folds excess months into the year and excess
days into following months.  Every call site guarantees `1 ≤ m` and
`1 ≤ d` (zero components are rejected by the `!year || !month || !day`
falsy checks before any construction, and components read back from an
existing date are already in range), so the negative-index semantics of
`MakeDay` are not needed. -/
def mkDate (y : Int) (m d : Nat) : CalendarDate :=
  let yr : Int := if 0 ≤ y ∧ y ≤ 99 then 1900 + y else y
  normDays (yr + ((m - 1) / 12 : Nat)) ((m - 1) % 12 + 1) d

/-- ECMAScript `DayFromYear`: the day number of January 1 of year `y`,
relative to the epoch.  `/` on `Int` is Euclidean division, which for
the positive literal divisors used here coincides with the `floor`
in the ECMAScript formula. -/
def dayFromYear (y : Int) : Int :=
  365 * (y - 1970) + (y - 1969) / 4 - (y - 1901) / 100 + (y - 1601) / 400

/-- Days elapsed before the first of month `m` (1-based) within its
year (`leap` is the year's leap flag). -/
def monthOffset (m : Nat) (leap : Bool) : Int :=
  (if m = 1 then 0
   else if m = 2 then 31
   else if m = 3 then 59
   else if m = 4 then 90
   else if m = 5 then 120
   else if m = 6 then 151
   else if m = 7 then 181
   else if m = 8 then 212
   else if m = 9 then 243
   else if m = 10 then 273
   else if m = 11 then 304
   else 334) +
    (if 3 ≤ m ∧ leap = true then 1 else 0)

/-- ECMAScript `Day` of a local-midnight date: its day number relative
to the epoch. -/
def daysSinceEpoch (c : CalendarDate) : Int :=
  dayFromYear c.year + monthOffset c.month (isLeap c.year) + ((c.day : Int) - 1)

/-- Milliseconds per day (ECMAScript `msPerDay`). -/
def msPerDay : Int := 86400000

/-- Embedding of `getTime()` for the local-midnight dates this component
compares (timezone offset 0, see the header comment). -/
def getTime (c : CalendarDate) : Int :=
  msPerDay * daysSinceEpoch c

/-- Embeds `startOfDay` (src/src/App.vue lines 29-31):
`new Date(d.getFullYear(), d.getMonth(), d.getDate())`. -/
def startOfDay (c : CalendarDate) : CalendarDate :=
  mkDate c.year c.month c.day

/-- Embeds `getAgeYears` (src/src/App.vue lines 33-43).  The source
compares `getMonth()` values (0-based); comparing the 1-based `month`
fields is the same comparison shifted by one on both sides. -/
def getAgeYears (birth onDate : CalendarDate) : Int :=
  let age := onDate.year - birth.year
  let age :=
    if onDate.month < birth.month ∨ (onDate.month = birth.month ∧ onDate.day < birth.day)
    then age - 1 else age
  max 0 age

/-- Embeds `lastBirthday` (src/src/App.vue lines 45-49):
`new Date(birth.getFullYear() + age, birth.getMonth(), birth.getDate())`. -/
def lastBirthday (birth onDate : CalendarDate) : CalendarDate :=
  mkDate (birth.year + getAgeYears birth onDate) birth.month birth.day

/-- Embeds `weeksSinceLastBirthday` (src/src/App.vue lines 51-58).
`Math.floor` of a positive ratio of integers below 2^53 is exact in
floating point and equals Euclidean division by the positive divisor. -/
def weeksSinceLastBirthday (birth onDate : CalendarDate) : Int :=
  let msPerWeek : Int := 1000 * 60 * 60 * 24 * 7
  let start := startOfDay (lastBirthday birth onDate)
  let stop := startOfDay onDate
  let diff := getTime stop - getTime start
  if diff ≤ 0 then 0 else diff / msPerWeek

/-- Grid height constant `TOTAL_YEARS` (src/src/App.vue line 4). -/
def TOTAL_YEARS : Nat := 90

/-- Grid width constant `WEEKS_PER_YEAR` (src/src/App.vue line 5). -/
def WEEKS_PER_YEAR : Nat := 52

/-- Embeds `isWeekPassed` (src/src/App.vue lines 60-71).  The reactive
inputs `birthDate.value` (nullable) and `today.value` are passed
explicitly. -/
def isWeekPassed (birth? : Option CalendarDate) (now : CalendarDate)
    (yearIndex weekIndex : Int) : Bool :=
  match birth? with
  | none => false
  | some birth =>
    let ageYears := getAgeYears birth now
    if yearIndex < ageYears then true
    else if ageYears < yearIndex then false
    else decide (weekIndex < min (WEEKS_PER_YEAR : Int) (weeksSinceLastBirthday birth now))

/-- Embedding of JavaScript `String.prototype.split` with separator
`"-"`, on the character list of the string. -/
def splitDash : List Char → List (List Char)
  | [] => [[]]
  | c :: rest =>
    if c = '-' then [] :: splitDash rest
    else
      match splitDash rest with
      | [] => [[c]]
      | g :: gs => (c :: g) :: gs

/-- Embedding of JavaScript `Number(s)` restricted to the strings that
arise here: a nonempty all-digit string yields its decimal value; the
empty string yields 0 in JavaScript and any other form the split can
produce here yields `NaN` — both are falsy, exactly like `none` under
the `!y || !m || !d` checks at every use site, so both are embedded as
`none` (`some 0` would be treated identically by those checks). -/
def jsNumber (cs : List Char) : Option Nat :=
  if cs ≠ [] ∧ cs.all Char.isDigit then
    some (cs.foldl (fun a c => 10 * a + (c.toNat - 48)) 0)
  else none

/-- The regular expression `^\d{4}-\d{2}-\d{2}$` from `isValidDateInput`
(src/src/App.vue line 75), as a predicate on the character list. -/
def shapeOK : List Char → Bool
  | [c1, c2, c3, c4, c5, c6, c7, c8, c9, c10] =>
    c1.isDigit && c2.isDigit && c3.isDigit && c4.isDigit && (c5 == '-') &&
      c6.isDigit && c7.isDigit && (c8 == '-') && c9.isDigit && c10.isDigit
  | _ => false

/-- Embeds `isValidDateInput` (src/src/App.vue lines 73-80): regex
shape test, split on `-`, numeric conversion, falsy-component
rejection, then the reconstruction round-trip check
`dt.getFullYear() === y && dt.getMonth() === m - 1 && dt.getDate() === d`
(comparing the 1-based `month` with `m` is the same comparison). -/
def isValidDateInput (s : String) : Bool :=
  shapeOK s.toList &&
    (match (splitDash s.toList).map jsNumber with
     | [some y, some m, some d] =>
       !(y == 0) && !(m == 0) && !(d == 0) &&
         (let dt := mkDate (y : Int) m d
          dt.year == (y : Int) && dt.month == m && dt.day == d)
     | _ => false)

/-- Embeds the `birthDate` computed value (src/src/App.vue lines
17-25): empty input is falsy and yields `null`; otherwise split on
`-`, require exactly three parts, reject falsy (zero or `NaN`)
components, and build `new Date(year, month - 1, day)` with no range
validation. -/
def birthDate (s : String) : Option CalendarDate :=
  if s = "" then none
  else
    match (splitDash s.toList).map jsNumber with
    | [some y, some m, some d] =>
      if y == 0 || m == 0 || d == 0 then none
      else some (mkDate (y : Int) m d)
    | _ => none

/-- Embeds the `onMounted` hook (src/src/App.vue lines 82-89): given
the optional `dob` query parameter it produces the post-mount state
`(birthInput, hasDobParam)`.  An absent parameter is `null` and an
empty-string parameter is falsy, so both leave the state unchanged at
`("", false)`. -/
def initState (dobParam : Option String) : String × Bool :=
  match dobParam with
  | some dob => if isValidDateInput dob then (dob, true) else ("", false)
  | none => ("", false)

/-- The template shows the date picker under `v-if="!hasDobParam"`
(src/src/App.vue line 95). -/
def pickerVisible (st : String × Bool) : Bool :=
  !st.2

/-- One `LIFE_EXPECTANCY` entry (src/src/App.vue lines 12-15). -/
structure LifeMark where
  years : Nat
  weeks : Nat
  totalWeeks : Nat
  deriving DecidableEq

/-- `LIFE_EXPECTANCY.women` (src/src/App.vue line 13). -/
def LIFE_EXPECTANCY_women : LifeMark :=
  ⟨81, 15, 81 * WEEKS_PER_YEAR + 15⟩

/-- `LIFE_EXPECTANCY.men` (src/src/App.vue line 14). -/
def LIFE_EXPECTANCY_men : LifeMark :=
  ⟨76, 10, 76 * WEEKS_PER_YEAR + 10⟩

/-- The women's outline condition of the cell at 0-based grid
coordinate `(yearIdx, weekIdx)`.  The template iterates
`year in TOTAL_YEARS` and `week in WEEKS_PER_YEAR` (1-based values)
and renders the cell keyed `(year - 1, week - 1)` with class condition
`week === LIFE_EXPECTANCY.women.weeks && year === LIFE_EXPECTANCY.women.years`
(src/src/App.vue lines 115-127), so the loop values are
`yearIdx + 1` and `weekIdx + 1`. -/
def womenOutline (yearIdx weekIdx : Nat) : Bool :=
  (weekIdx + 1 == LIFE_EXPECTANCY_women.weeks) && (yearIdx + 1 == LIFE_EXPECTANCY_women.years)

/-- The men's outline condition of the cell at 0-based coordinate
`(yearIdx, weekIdx)` (src/src/App.vue lines 124-126). -/
def menOutline (yearIdx weekIdx : Nat) : Bool :=
  (weekIdx + 1 == LIFE_EXPECTANCY_men.weeks) && (yearIdx + 1 == LIFE_EXPECTANCY_men.years)

/-- The elapsed/not-elapsed class of the cell at 0-based coordinate
`(yearIdx, weekIdx)`: the template computes
`isWeekPassed(year - 1, week - 1)` (src/src/App.vue line 120). -/
def cellElapsed (birth? : Option CalendarDate) (now : CalendarDate)
    (yearIdx weekIdx : Nat) : Bool :=
  isWeekPassed birth? now (yearIdx : Int) (weekIdx : Int)

/-- The CalendarDate invariant of the spec's data model: month in
[1,12] and day valid for (year, month). -/
def ValidTriple (y : Int) (m d : Nat) : Prop :=
  1 ≤ m ∧ m ≤ 12 ∧ 1 ≤ d ∧ d ≤ daysInMonth y m

instance (y : Int) (m d : Nat) : Decidable (ValidTriple y m d) := by
  unfold ValidTriple; infer_instance

/-- A structurally valid calendar date. -/
def ValidDate (c : CalendarDate) : Prop :=
  ValidTriple c.year c.month c.day

instance (c : CalendarDate) : Decidable (ValidDate c) := by
  unfold ValidDate; infer_instance

/-- Calendar order on local-midnight dates (lexicographic on
year, month, day — the order `getTime` induces on valid dates). -/
def dateLE (a b : CalendarDate) : Prop :=
  a.year < b.year ∨
    (a.year = b.year ∧ (a.month < b.month ∨ (a.month = b.month ∧ a.day ≤ b.day)))

instance (a b : CalendarDate) : Decidable (dateLE a b) := by
  unfold dateLE; infer_instance

/-- Strict calendar order on local-midnight dates. -/
def dateLT (a b : CalendarDate) : Prop :=
  a.year < b.year ∨
    (a.year = b.year ∧ (a.month < b.month ∨ (a.month = b.month ∧ a.day < b.day)))

instance (a b : CalendarDate) : Decidable (dateLT a b) := by
  unfold dateLT; infer_instance

/-- The calendar predecessor of a valid date: the date one day
earlier (used only to state the anniversary property). -/
def prevDay (c : CalendarDate) : CalendarDate :=
  if 2 ≤ c.day then ⟨c.year, c.month, c.day - 1⟩
  else if 2 ≤ c.month then ⟨c.year, c.month - 1, daysInMonth c.year (c.month - 1)⟩
  else ⟨c.year - 1, 12, 31⟩

/-! ### Normalization lemmas -/

theorem daysInMonth_ge (y : Int) (m : Nat) : 28 ≤ daysInMonth y m := by
  unfold daysInMonth; split_ifs <;> omega

theorem daysInMonth_le (y : Int) (m : Nat) : daysInMonth y m ≤ 31 := by
  unfold daysInMonth; split_ifs <;> omega

theorem daysInMonth_twelve (y : Int) : daysInMonth y 12 = 31 := by
  norm_num [daysInMonth]

theorem daysInMonth_ne_two (y y' : Int) (m : Nat) (h : m ≠ 2) :
    daysInMonth y m = daysInMonth y' m := by
  simp [daysInMonth, h]

theorem normDaysAux_base (f : Nat) (y : Int) (m d : Nat) (h : ¬ daysInMonth y m < d) :
    normDaysAux f y m d = ⟨y, m, d⟩ := by
  cases f <;> simp [normDaysAux, h]

theorem normDaysAux_step (f : Nat) (y : Int) (m d : Nat) (h : daysInMonth y m < d)
    (hm : m ≠ 12) :
    normDaysAux (f + 1) y m d = normDaysAux f y (m + 1) (d - daysInMonth y m) := by
  simp [normDaysAux, h, hm]

theorem normDaysAux_spec (f : Nat) : ∀ (y : Int) (m d : Nat), 1 ≤ m → m ≤ 12 → 1 ≤ d →
    d ≤ f + 1 → ValidDate (normDaysAux f y m d) ∧ y ≤ (normDaysAux f y m d).year := by
  induction f with
  | zero =>
    intro y m d h1 h2 h3 h4
    have hd : d = 1 := by omega
    subst hd
    have hge := daysInMonth_ge y m
    simp only [normDaysAux]
    refine ⟨⟨h1, h2, le_refl _, ?_⟩, le_refl _⟩
    show 1 ≤ daysInMonth y m
    omega
  | succ f ih =>
    intro y m d h1 h2 h3 h4
    by_cases hlt : daysInMonth y m < d
    · have hge := daysInMonth_ge y m
      have hle := daysInMonth_le y m
      by_cases hm : m = 12
      · subst hm
        rw [show daysInMonth y 12 = 31 from daysInMonth_twelve y] at hlt
        have step : normDaysAux (f + 1) y 12 d = normDaysAux f (y + 1) 1 (d - 31) := by
          simp [normDaysAux, daysInMonth_twelve y, hlt]
        rw [step]
        have h := ih (y + 1) 1 (d - 31) (by omega) (by omega) (by omega) (by omega)
        exact ⟨h.1, by omega⟩
      · rw [normDaysAux_step f y m d hlt hm]
        exact ih y (m + 1) (d - daysInMonth y m) (by omega) (by omega) (by omega) (by omega)
    · rw [normDaysAux_base _ _ _ _ hlt]
      refine ⟨⟨h1, h2, h3, ?_⟩, le_refl _⟩
      show d ≤ daysInMonth y m
      omega

theorem mkDate_valid (y : Int) (m d : Nat) (hm : 1 ≤ m) (hd : 1 ≤ d) :
    ValidDate (mkDate y m d) := by
  unfold mkDate normDays
  exact (normDaysAux_spec d _ _ d (by omega) (by omega) hd (by omega)).1

theorem mkDate_roundtrip (y : Int) (m d : Nat) (hy : 100 ≤ y) (hvt : ValidTriple y m d) :
    mkDate y m d = ⟨y, m, d⟩ := by
  obtain ⟨h1, h2, h3, h4⟩ := hvt
  unfold mkDate normDays
  have hq : ¬ (0 ≤ y ∧ y ≤ 99) := by omega
  have hdiv : (m - 1) / 12 = 0 := by omega
  have hmod : (m - 1) % 12 + 1 = m := by omega
  simp only [hq, if_false, hdiv, hmod, Nat.cast_zero, add_zero]
  exact normDaysAux_base d y m d (by omega)

theorem mkDate_feb29 (y : Int) (hy : 100 ≤ y) (hl : isLeap y = false) :
    mkDate y 2 29 = ⟨y, 3, 1⟩ := by
  unfold mkDate normDays
  have hq : ¬ (0 ≤ y ∧ y ≤ 99) := by omega
  have hdm : daysInMonth y 2 = 28 := by simp [daysInMonth, hl]
  simp only [hq, if_false]
  norm_num
  rw [show (29 : Nat) = 28 + 1 from rfl, normDaysAux_step 28 y 2 29 (by omega) (by omega)]
  · rw [hdm]
    exact normDaysAux_base 28 y 3 1 (by have := daysInMonth_ge y 3; omega)

theorem startOfDay_eq_self (c : CalendarDate) (hv : ValidDate c) (hy : 100 ≤ c.year) :
    startOfDay c = c := by
  unfold startOfDay
  exact mkDate_roundtrip c.year c.month c.day hy hv
/-! ### Day-number lemmas -/

theorem getAgeYears_eq (b o : CalendarDate) :
    getAgeYears b o =
      max 0 (o.year - b.year -
        (if o.month < b.month ∨ (o.month = b.month ∧ o.day < b.day) then 1 else 0)) := by
  simp only [getAgeYears]
  split_ifs <;> omega

theorem dayFromYear_succ (y : Int) :
    dayFromYear (y + 1) = dayFromYear y + 365 + (if isLeap y then 1 else 0) := by
  unfold dayFromYear isLeap
  by_cases h4 : y % 4 = 0 <;> by_cases h100 : y % 100 = 0 <;> by_cases h400 : y % 400 = 0 <;>
    simp [h4, h100, h400] <;> omega

theorem dayFromYear_lt (y1 y2 : Int) (h : y1 < y2) :
    dayFromYear y1 + 365 ≤ dayFromYear y2 := by
  have hstep : ∀ n : Int, dayFromYear n ≤ dayFromYear (n + 1) := by
    intro n
    rw [dayFromYear_succ n]
    split_ifs <;> omega
  have main : ∀ n : Int, y1 + 1 ≤ n → dayFromYear y1 + 365 ≤ dayFromYear n := by
    refine @Int.le_induction (fun n => dayFromYear y1 + 365 ≤ dayFromYear n) (y1 + 1) ?_ ?_
    · show dayFromYear y1 + 365 ≤ dayFromYear (y1 + 1)
      rw [dayFromYear_succ y1]
      split_ifs <;> omega
    · intro n hn ih
      have := hstep n
      omega
  exact main y2 (by omega)

theorem monthOffset_nonneg (m : Nat) (hm : m ≤ 12) (L : Bool) : 0 ≤ monthOffset m L := by
  interval_cases m <;> cases L <;> simp [monthOffset]

theorem offset_dm_le (y : Int) (m1 m2 : Nat) (h1 : 1 ≤ m1) (h : m1 < m2) (h2 : m2 ≤ 12) :
    monthOffset m1 (isLeap y) + (daysInMonth y m1 : Int) ≤ monthOffset m2 (isLeap y) := by
  have hm1 : m1 ≤ 11 := by omega
  cases hL : isLeap y <;> interval_cases m1 <;> interval_cases m2 <;>
    simp [monthOffset, daysInMonth, hL]

theorem offset_dm_year (y : Int) (m : Nat) (h1 : 1 ≤ m) (h2 : m ≤ 12) :
    monthOffset m (isLeap y) + (daysInMonth y m : Int) ≤ 365 + (if isLeap y then 1 else 0) := by
  cases hL : isLeap y <;> interval_cases m <;> simp [monthOffset, daysInMonth, hL]

theorem daysSinceEpoch_mono (a b : CalendarDate) (ha : ValidDate a) (hb : ValidDate b)
    (h : dateLE a b) : daysSinceEpoch a ≤ daysSinceEpoch b := by
  obtain ⟨ha1, ha2, ha3, ha4⟩ := ha
  obtain ⟨hb1, hb2, hb3, hb4⟩ := hb
  unfold daysSinceEpoch
  rcases h with hy | ⟨hy, hmd⟩
  · have hbound := offset_dm_year a.year a.month ha1 ha2
    have hcross := dayFromYear_lt a.year b.year hy
    have hnng := monthOffset_nonneg b.month hb2 (isLeap b.year)
    split_ifs at hbound <;> omega
  · rw [hy]
    rcases hmd with hm | ⟨hm, hd⟩
    · have hstep := offset_dm_le b.year a.month b.month ha1 hm hb2
      have hdm : daysInMonth a.year a.month = daysInMonth b.year a.month := by
        by_cases h2 : a.month = 2
        · rw [h2] at *; rw [hy]
        · exact daysInMonth_ne_two a.year b.year a.month h2
      rw [hdm] at ha4
      omega
    · rw [hm]
      omega

theorem getAgeYears_mono (b n1 n2 : CalendarDate) (h : dateLE n1 n2) :
    getAgeYears b n1 ≤ getAgeYears b n2 := by
  rw [getAgeYears_eq, getAgeYears_eq]
  rcases h with hy | ⟨hy, hmd⟩
  · split_ifs <;> omega
  · rcases hmd with hm | ⟨hm, hd⟩ <;> split_ifs <;> omega

theorem weeksSinceLastBirthday_nonneg (b o : CalendarDate) :
    0 ≤ weeksSinceLastBirthday b o := by
  simp only [weeksSinceLastBirthday]
  split_ifs with h
  · exact le_refl 0
  · exact Int.ediv_nonneg (by omega) (by norm_num)

theorem weeksSince_eq_days (b o : CalendarDate) :
    weeksSinceLastBirthday b o =
      (if daysSinceEpoch (startOfDay o) - daysSinceEpoch (startOfDay (lastBirthday b o)) ≤ 0
       then 0
       else (daysSinceEpoch (startOfDay o) -
          daysSinceEpoch (startOfDay (lastBirthday b o))) / 7) := by
  simp only [weeksSinceLastBirthday, getTime, msPerDay]
  set S := daysSinceEpoch (startOfDay (lastBirthday b o)) with hS
  set E := daysSinceEpoch (startOfDay o) with hE
  rw [show (86400000 : Int) * E - 86400000 * S = 86400000 * (E - S) from by ring]
  split_ifs with hA hB hB
  · rfl
  · exact absurd (by omega : E - S ≤ 0) hB
  · exact absurd (by omega : (86400000 : Int) * (E - S) ≤ 0) hA
  · rw [show (1000 * 60 * 60 * 24 * 7 : Int) = 86400000 * 7 from by norm_num]
    exact Int.mul_ediv_mul_of_pos _ _ (by norm_num)

theorem lastBirthday_le (b o : CalendarDate) (hb : ValidDate b) (ho : ValidDate o)
    (hby : 100 ≤ b.year) (hle : dateLE b o) : dateLE (lastBirthday b o) o := by
  obtain ⟨hb1, hb2, hb3, hb4⟩ := hb
  obtain ⟨ho1, ho2, ho3, ho4⟩ := ho
  have hA0 : 0 ≤ getAgeYears b o := by rw [getAgeYears_eq]; omega
  have hY : 100 ≤ b.year + getAgeYears b o := by omega
  have hage := getAgeYears_eq b o
  unfold lastBirthday
  by_cases hd : b.day ≤ daysInMonth (b.year + getAgeYears b o) b.month
  · rw [mkDate_roundtrip _ _ _ hY ⟨hb1, hb2, hb3, hd⟩]
    show (b.year + getAgeYears b o < o.year) ∨
      (b.year + getAgeYears b o = o.year ∧
        (b.month < o.month ∨ (b.month = o.month ∧ b.day ≤ o.day)))
    rcases hle with hy | ⟨hy, hmd⟩
    · split_ifs at hage with hcond
      · left
        omega
      · push_neg at hcond
        right
        omega
    · split_ifs at hage with hcond
      · exfalso
        omega
      · push_neg at hcond
        right
        omega
  · -- day does not fit: only possible for a Feb 29 birth and a common target year
    push_neg at hd
    have hm2 : b.month = 2 := by
      by_contra hne
      rw [daysInMonth_ne_two (b.year + getAgeYears b o) b.year b.month hne] at hd
      omega
    rw [hm2] at hd hb4
    have h28 : 28 ≤ daysInMonth (b.year + getAgeYears b o) 2 := daysInMonth_ge _ 2
    have hby29 : daysInMonth b.year 2 ≤ 29 := by
      unfold daysInMonth
      split_ifs <;> omega
    have hd29 : b.day = 29 := by omega
    have hleap : isLeap (b.year + getAgeYears b o) = false := by
      by_contra hc
      rw [Bool.not_eq_false] at hc
      have h29 : daysInMonth (b.year + getAgeYears b o) 2 = 29 := by
        unfold daysInMonth
        simp [hc]
      omega
    rw [hm2, hd29, mkDate_feb29 _ hY hleap]
    show (b.year + getAgeYears b o < o.year) ∨
      (b.year + getAgeYears b o = o.year ∧ (3 < o.month ∨ (3 = o.month ∧ 1 ≤ o.day)))
    rcases hle with hy | ⟨hy, hmd⟩
    · split_ifs at hage with hcond
      · left
        omega
      · -- no decrement: o's (month, day) is lex-at-least (2, 29)
        push_neg at hcond
        rw [hm2, hd29] at hcond
        have hyear : b.year + getAgeYears b o = o.year := by omega
        by_cases hom : o.month = 2
        · -- o sits in February of the same common year, so o.day ≤ 28 < 29
          exfalso
          have hfeb : daysInMonth o.year 2 = 28 := by
            unfold daysInMonth
            rw [← hyear]
            simp [hleap]
          rw [hom] at ho4
          omega
        · right
          refine ⟨hyear, ?_⟩
          omega
    · -- same year: the age is 0, so the day fits b's own February
      exfalso
      split_ifs at hage with hcond
      · rw [hm2, hd29] at hcond
        rw [hm2, hd29] at hmd
        omega
      · have hA : getAgeYears b o = 0 := by omega
        rw [hA, add_zero] at hd
        omega

/-! ### The claims -/

/-- C1: for every observation date, coordinate pair and optional birth date,
`isWeekPassed` returns false when no valid birth date is present; returns true
when the year index is below `getAgeYears birth now`; returns false when it is
above; and on the current year-row returns whether the week index is below
`min 52 (weeksSinceLastBirthday birth now)`. -/
theorem claim1_isWeekPassed_cases : ∀ (now : CalendarDate) (y w : Int),
    isWeekPassed none now y w = false ∧
    ∀ b : CalendarDate,
      (y < getAgeYears b now → isWeekPassed (some b) now y w = true) ∧
      (getAgeYears b now < y → isWeekPassed (some b) now y w = false) ∧
      (y = getAgeYears b now →
        (isWeekPassed (some b) now y w = true ↔
          w < min 52 (weeksSinceLastBirthday b now))) := by
  intro now y w
  refine ⟨rfl, fun b => ⟨?_, ?_, ?_⟩⟩
  · intro h
    simp only [isWeekPassed]
    rw [if_pos h]
  · intro h
    simp only [isWeekPassed]
    rw [if_neg (by omega), if_pos h]
  · intro h
    simp only [isWeekPassed]
    rw [if_neg (by omega), if_neg (by omega)]
    simp [WEEKS_PER_YEAR, decide_eq_true_eq]

/-- C1 witness: a concrete fully-elapsed year-row cell. -/
theorem claim1_witness :
    isWeekPassed (some ⟨1990, 1, 1⟩) ⟨2000, 1, 1⟩ 0 0 = true :=
  ((claim1_isWeekPassed_cases ⟨2000, 1, 1⟩ 0 0).2 ⟨1990, 1, 1⟩).1 (by decide)

/-- C2 counterexample: `(99, 1, 1)` is a valid calendar triple whose string
form matches the required shape, yet `isValidDateInput` rejects it — the
`Date` constructor remaps year 99 to 1999, so the round-trip check fails. -/
theorem claim2_counterexample :
    ValidTriple 99 1 1 ∧ shapeOK ("0099-01-01").toList = true ∧
      isValidDateInput ("0099-01-01") = false ∧ (mkDate 99 1 1).year = 1999 := by
  exact ⟨by decide, by decide, by decide, by decide⟩

/-- C2 (amended): an accepted string always matches the `DDDD-DD-DD` shape;
for every valid calendar triple whose year lies outside the constructor's
two-digit-year remapping range (year ≥ 100), the reconstruction round-trips
component-for-component, and for every invalid triple with nonzero
components the reconstruction differs from the input (the rolled-over date
is rejected by the validator); the cited invalid strings are rejected. -/
theorem claim2_roundtrip :
    (∀ s : String, isValidDateInput s = true → shapeOK s.toList = true) ∧
    (∀ (y : Int) (m d : Nat), 100 ≤ y → ValidTriple y m d → mkDate y m d = ⟨y, m, d⟩) ∧
    (∀ (y : Int) (m d : Nat), 1 ≤ m → 1 ≤ d → ¬ ValidTriple y m d →
      mkDate y m d ≠ ⟨y, m, d⟩) ∧
    isValidDateInput ("2023-02-30") = false ∧
    isValidDateInput ("2023-13-01") = false ∧
    isValidDateInput ("2023-00-10") = false := by
  refine ⟨?_, ?_, ?_, by decide, by decide, by decide⟩
  · intro s h
    simp only [isValidDateInput, Bool.and_eq_true] at h
    exact h.1
  · intro y m d hy hvt
    exact mkDate_roundtrip y m d hy hvt
  · intro y m d hm hd hnv hEq
    have hv : ValidDate (mkDate y m d) := mkDate_valid y m d hm hd
    rw [hEq] at hv
    exact hnv hv

/-- C2 witness: a concrete leap-day triple accepted by the round-trip. -/
theorem claim2_witness : mkDate 2000 2 29 = ⟨2000, 2, 29⟩ :=
  claim2_roundtrip.2.1 2000 2 29 (by norm_num) (by decide)

/-- C3 counterexample: with birth 1940-06-15, moving the observation date
forward from (99)-12-31 to (100)-01-01 un-marks the elapsed cell (0, 0),
because the `startOfDay` reconstruction maps year 99 to 1999 but leaves
year 100 alone, so the computed span collapses. -/
theorem claim3_counterexample :
    dateLT ⟨99, 12, 31⟩ ⟨100, 1, 1⟩ ∧
    ValidDate ⟨1940, 6, 15⟩ ∧ ValidDate ⟨99, 12, 31⟩ ∧ ValidDate ⟨100, 1, 1⟩ ∧
    isWeekPassed (some ⟨1940, 6, 15⟩) ⟨99, 12, 31⟩ 0 0 = true ∧
    isWeekPassed (some ⟨1940, 6, 15⟩) ⟨100, 1, 1⟩ 0 0 = false := by
  exact ⟨by decide, by decide, by decide, by decide, by decide, by decide⟩

/-- C3 (amended): for every birth date and every pair of valid observation
dates outside the constructor's two-digit-year remapping range
(years ≥ 100), `isWeekPassed` is monotone in the observation date: every
coordinate elapsed under the earlier date is elapsed under the later one. -/
theorem claim3_mono (b n1 n2 : CalendarDate) (y w : Int)
    (h1 : ValidDate n1) (h2 : ValidDate n2) (h1y : 100 ≤ n1.year) (h2y : 100 ≤ n2.year)
    (hle : dateLE n1 n2)
    (ht : isWeekPassed (some b) n1 y w = true) :
    isWeekPassed (some b) n2 y w = true := by
  have hage := getAgeYears_mono b n1 n2 hle
  by_cases hyy : y < getAgeYears b n2
  · simp [isWeekPassed, hyy]
  · push_neg at hyy
    have hy1 : ¬ y < getAgeYears b n1 := by omega
    simp only [isWeekPassed] at ht
    rw [if_neg hy1] at ht
    by_cases hgt : getAgeYears b n1 < y
    · rw [if_pos hgt] at ht
      exact absurd ht (by simp)
    · rw [if_neg hgt] at ht
      have heq : getAgeYears b n1 = getAgeYears b n2 := by omega
      have hwk : weeksSinceLastBirthday b n1 ≤ weeksSinceLastBirthday b n2 := by
        have hlb : lastBirthday b n1 = lastBirthday b n2 := by
          unfold lastBirthday
          rw [heq]
        have hs1 : startOfDay n1 = n1 := startOfDay_eq_self n1 h1 h1y
        have hs2 : startOfDay n2 = n2 := startOfDay_eq_self n2 h2 h2y
        have hdse : daysSinceEpoch n1 ≤ daysSinceEpoch n2 :=
          daysSinceEpoch_mono n1 n2 h1 h2 hle
        rw [weeksSince_eq_days b n1, weeksSince_eq_days b n2, hlb, hs1, hs2]
        set S := daysSinceEpoch (startOfDay (lastBirthday b n2)) with hS
        split_ifs with d1 d2 d2
        · exact le_refl 0
        · exact Int.ediv_nonneg (by omega) (by norm_num)
        · omega
        · exact Int.ediv_le_ediv (by norm_num) (by omega)
      simp only [isWeekPassed]
      rw [if_neg (by omega), if_neg (by omega)]
      simp only [decide_eq_true_eq] at ht ⊢
      omega

/-- C3 witness: monotonicity applied to two concrete 2000 dates. -/
theorem claim3_witness :
    isWeekPassed (some ⟨2000, 1, 1⟩) ⟨2000, 1, 15⟩ 0 0 = true :=
  claim3_mono ⟨2000, 1, 1⟩ ⟨2000, 1, 8⟩ ⟨2000, 1, 15⟩ 0 0
    (by decide) (by decide) (by decide) (by decide) (by decide) (by decide)

/-- C4: with birth 2000-01-01, on 2000-01-01 itself every cell of the 90-by-52
grid is not elapsed, and on 2000-01-08 coordinate (0, 0) is elapsed while
(0, 1) is not. -/
theorem claim4_scenarios :
    (∀ y w : Int, 0 ≤ y → y < (TOTAL_YEARS : Int) → 0 ≤ w → w < (WEEKS_PER_YEAR : Int) →
      isWeekPassed (some ⟨2000, 1, 1⟩) ⟨2000, 1, 1⟩ y w = false) ∧
    isWeekPassed (some ⟨2000, 1, 1⟩) ⟨2000, 1, 8⟩ 0 0 = true ∧
    isWeekPassed (some ⟨2000, 1, 1⟩) ⟨2000, 1, 8⟩ 0 1 = false := by
  refine ⟨?_, by decide, by decide⟩
  intro y w hy hyt hw hwt
  have hage : getAgeYears ⟨2000, 1, 1⟩ ⟨2000, 1, 1⟩ = 0 := by decide
  have hwk : weeksSinceLastBirthday ⟨2000, 1, 1⟩ ⟨2000, 1, 1⟩ = 0 := by decide
  simp only [isWeekPassed, hage, hwk]
  rw [if_neg (by omega)]
  split_ifs with h
  · rfl
  · simp only [decide_eq_false_iff_not, WEEKS_PER_YEAR]
    omega

/-- C4 witness: one concrete grid cell from the all-false scenario. -/
theorem claim4_witness :
    isWeekPassed (some ⟨2000, 1, 1⟩) ⟨2000, 1, 1⟩ 10 20 = false :=
  claim4_scenarios.1 10 20 (by decide) (by decide) (by decide) (by decide)

/-- C5: `getAgeYears` is the anniversary-based age — the year difference,
decremented when the observation's (month, day) precedes the birth's, and
floored at zero; in particular the age on the birth date itself is 0, and
for every k-th anniversary (k ≥ 1) that exists as a calendar date, the age
one day before it is exactly one less than the age on it. -/
theorem claim5_getAgeYears :
    (∀ b o : CalendarDate,
      getAgeYears b o =
        max 0 (o.year - b.year -
          (if o.month < b.month ∨ (o.month = b.month ∧ o.day < b.day) then 1 else 0)) ∧
      0 ≤ getAgeYears b o) ∧
    (∀ b : CalendarDate, getAgeYears b b = 0) ∧
    (∀ (b : CalendarDate) (k : Int), 1 ≤ k → ValidDate b →
      ValidDate ⟨b.year + k, b.month, b.day⟩ →
      getAgeYears b (prevDay ⟨b.year + k, b.month, b.day⟩) + 1 =
        getAgeYears b ⟨b.year + k, b.month, b.day⟩) := by
  refine ⟨fun b o => ⟨getAgeYears_eq b o, ?_⟩, ?_, ?_⟩
  · rw [getAgeYears_eq]
    omega
  · intro b
    rw [getAgeYears_eq]
    split_ifs with h
    · exfalso
      omega
    · omega
  · intro b k hk hvb hva
    obtain ⟨hb1, hb2, hb3, hb4⟩ := hvb
    unfold prevDay
    split_ifs with hd hm
    · have hd1 : 2 ≤ b.day := hd
      rw [getAgeYears_eq, getAgeYears_eq]
      dsimp only
      split_ifs <;> omega
    · have hd1 : ¬ 2 ≤ b.day := hd
      have hm1 : 2 ≤ b.month := hm
      rw [getAgeYears_eq, getAgeYears_eq]
      dsimp only
      split_ifs <;> omega
    · have hd1 : ¬ 2 ≤ b.day := hd
      have hm1 : ¬ 2 ≤ b.month := hm
      rw [getAgeYears_eq, getAgeYears_eq]
      dsimp only
      split_ifs <;> omega

/-- C5 witness: the first anniversary of 2000-03-15. -/
theorem claim5_witness :
    getAgeYears ⟨2000, 3, 15⟩ (prevDay ⟨2000 + 1, 3, 15⟩) + 1 =
      getAgeYears ⟨2000, 3, 15⟩ ⟨2000 + 1, 3, 15⟩ :=
  claim5_getAgeYears.2.2 ⟨2000, 3, 15⟩ 1 (by norm_num) (by decide) (by decide)

/-- C6 counterexample: when the observation date precedes the birth date the
claimed bound fails — the age floors at 0 and `lastBirthday` returns the
birth date itself, which is after the observation date. -/
theorem claim6_counterexample :
    ValidDate ⟨2000, 1, 1⟩ ∧ ValidDate ⟨1999, 1, 1⟩ ∧
    lastBirthday ⟨2000, 1, 1⟩ ⟨1999, 1, 1⟩ = ⟨2000, 1, 1⟩ ∧
    ¬ dateLE (lastBirthday ⟨2000, 1, 1⟩ ⟨1999, 1, 1⟩) ⟨1999, 1, 1⟩ := by
  exact ⟨by decide, by decide, by decide, by decide⟩

/-- C6 (amended): `lastBirthday` is exactly the constructor applied to the
year `birth.year + getAgeYears birth onDate` with birth's (month, day); and
whenever the valid birth date (outside the two-digit-year remapping range)
is on or before the valid observation date, the result is on or before the
observation date. -/
theorem claim6_lastBirthday :
    (∀ b o : CalendarDate,
      lastBirthday b o = mkDate (b.year + getAgeYears b o) b.month b.day) ∧
    (∀ b o : CalendarDate, ValidDate b → ValidDate o → 100 ≤ b.year → dateLE b o →
      dateLE (lastBirthday b o) o) :=
  ⟨fun _ _ => rfl, lastBirthday_le⟩

/-- C6 witness: a concrete mid-year observation. -/
theorem claim6_witness : dateLE (lastBirthday ⟨2000, 1, 1⟩ ⟨2000, 6, 1⟩) ⟨2000, 6, 1⟩ :=
  claim6_lastBirthday.2 ⟨2000, 1, 1⟩ ⟨2000, 6, 1⟩ (by decide) (by decide) (by decide)
    (by decide)

/-- C7: `weeksSinceLastBirthday` equals the floor of the day-difference
between the midnight observation date and the midnight last birthday divided
by 7 when that difference is positive, and 0 whenever the difference is
nonpositive; consequently it is nonnegative for all inputs. -/
theorem claim7_weeksSince : ∀ b o : CalendarDate,
    (weeksSinceLastBirthday b o =
      (if daysSinceEpoch (startOfDay o) - daysSinceEpoch (startOfDay (lastBirthday b o)) ≤ 0
       then 0
       else (daysSinceEpoch (startOfDay o) -
          daysSinceEpoch (startOfDay (lastBirthday b o))) / 7)) ∧
    0 ≤ weeksSinceLastBirthday b o :=
  fun b o => ⟨weeksSince_eq_days b o, weeksSinceLastBirthday_nonneg b o⟩

/-- C8 counterexample: no outline is rendered at the 0-based coordinates
(81, 15) and (76, 10); the template compares the 1-based loop values with
the constants, so the outlined cells are (80, 14) and (75, 9). -/
theorem claim8_counterexample :
    womenOutline 81 15 = false ∧ menOutline 76 10 = false ∧
      womenOutline 80 14 = true ∧ menOutline 75 9 = true := by
  exact ⟨by decide, by decide, by decide, by decide⟩

/-- C8 (amended): the women's mark outlines exactly the cell with 0-based
coordinate (80, 14) and the men's mark exactly (75, 9) — the cells whose
1-based template loop values equal (81, 15) and (76, 10) — so at most two
cells carry an outline, and the outline never affects the elapsed
classification, which is `isWeekPassed` of the 0-based coordinate alone. -/
theorem claim8_marks :
    (∀ yearIdx weekIdx : Nat,
      womenOutline yearIdx weekIdx = true ↔ (yearIdx = 80 ∧ weekIdx = 14)) ∧
    (∀ yearIdx weekIdx : Nat,
      menOutline yearIdx weekIdx = true ↔ (yearIdx = 75 ∧ weekIdx = 9)) ∧
    (∀ (birth? : Option CalendarDate) (now : CalendarDate) (yearIdx weekIdx : Nat),
      cellElapsed birth? now yearIdx weekIdx =
        isWeekPassed birth? now (yearIdx : Int) (weekIdx : Int)) := by
  refine ⟨?_, ?_, fun _ _ _ _ => rfl⟩
  · intro y w
    simp only [womenOutline, LIFE_EXPECTANCY_women, Bool.and_eq_true, beq_iff_eq]
    omega
  · intro y w
    simp only [menOutline, LIFE_EXPECTANCY_men, Bool.and_eq_true, beq_iff_eq]
    omega

/-- C9: a present and valid `dob` parameter becomes the birth input and
suppresses the picker; a present but invalid one (such as 2023-02-30) is
ignored, the picker stays visible, and with no other input every grid cell
is not elapsed. -/
theorem claim9_dobParam :
    (∀ s : String, isValidDateInput s = true →
      initState (some s) = (s, true) ∧ pickerVisible (initState (some s)) = false) ∧
    (∀ s : String, isValidDateInput s = false →
      initState (some s) = ("", false) ∧ pickerVisible (initState (some s)) = true) ∧
    isValidDateInput ("2023-02-30") = false ∧
    initState (some ("2023-02-30")) = ("", false) ∧
    (∀ (now : CalendarDate) (y w : Int),
      isWeekPassed (birthDate ((initState (some ("2023-02-30"))).1)) now y w = false) := by
  refine ⟨?_, ?_, by decide, by decide, ?_⟩
  · intro s h
    simp [initState, pickerVisible, h]
  · intro s h
    simp [initState, pickerVisible, h]
  · intro now y w
    have h1 : (initState (some ("2023-02-30"))).1 = "" := by decide
    rw [h1]
    rfl

/-- C9 witness: a concrete valid parameter locks the birth input. -/
theorem claim9_witness :
    initState (some ("2000-01-01")) = ("2000-01-01", true) ∧
      pickerVisible (initState (some ("2000-01-01"))) = false :=
  claim9_dobParam.1 ("2000-01-01") (by decide)

/-- C10: the picker-path parser applies no shape or round-trip validation —
it accepts strings the strict validator rejects, rolling semantically
invalid days forward (2023-02-30 becomes 2023-03-02) and accepting
non-zero-padded forms (2023-2-3); the strict validation guards only the
`dob` parameter path. -/
theorem claim10_lenientParse :
    isValidDateInput ("2023-02-30") = false ∧
    birthDate ("2023-02-30") = some ⟨2023, 3, 2⟩ ∧
    isValidDateInput ("2023-2-3") = false ∧
    birthDate ("2023-2-3") = some ⟨2023, 2, 3⟩ := by
  exact ⟨by decide, by decide, by decide, by decide⟩
